import Mathlib

/-
Verification of the real-time preprocessing pipeline engine of
`realtimefmri` (file `realtimefmri/preprocess.py`).

The development shallowly embeds the pipeline engine (`Pipeline.process`,
`Pipeline.build`) and the numeric preprocessing steps
(`IncrementalMeanStd`, `RunningMeanStd`, `ZScore`, `ActivityRatio`).

Modelling conventions:
- Python dicts are association lists `List (String × V)`; assignment
  `d[k] = v` replaces the first binding of `k` (or appends a fresh one),
  which preserves dict lookup semantics.
- Python exceptions are `Except` errors: the `KeyError` raised by
  `data_dict[k]` is `PErr.missingKey k` (the spec calls it
  `MissingKeyError`); the `TypeError` from comparing `None` with an
  integer is `PErr.typeError`.
- numpy arrays over exact rationals: an `NDArray` is a shape together
  with the flattened (C-order) data, since the steps only ever `ravel`
  and `reshape`.  `np.std`/`np.nanstd` take a real square root, so
  standard deviations live in `ℝ` while all bookkeeping stays in `ℚ`.
- IEEE special values (produced by division by zero in `ZScore` and
  `ActivityRatio`) are modelled by the type `Flt`: an exact rational,
  the two infinities, or `nan`.
-/

namespace Rtf

/-! ## Frames: the `data_dict` flowing through `Pipeline.process` -/

/-- A Python dict with string keys, as an association list. -/
abbrev Frame (V : Type) : Type := List (String × V)

/-- Dict lookup: first binding of the key wins. -/
def Frame.lookup {V : Type} : Frame V → String → Option V
  | [], _ => none
  | (k, v) :: rest, key => if k = key then some v else Frame.lookup rest key

/-- Dict assignment `d[key] = val`: replace the first binding of `key`,
or append a new binding when the key is absent. -/
def Frame.insert {V : Type} : Frame V → String → V → Frame V
  | [], key, val => [(key, val)]
  | (k, v) :: rest, key, val =>
      if k = key then (k, val) :: rest else (k, v) :: Frame.insert rest key val

/-- `d.update(pairs)`: fold dict assignment over a pair list. -/
def Frame.updatePairs {V : Type} (f : Frame V) (ps : List (String × V)) : Frame V :=
  ps.foldl (fun acc p => Frame.insert acc p.1 p.2) f

/-- `optOrElse a b` is `a` when `a` is `some`, else `b`. -/
def optOrElse {V : Type} (a b : Option V) : Option V :=
  match a with
  | some v => some v
  | none => b

/-- The value the last binding of `k` in `ps` carries, if any
(`dict(ps)` keeps the last occurrence of a repeated key). -/
def pairsLookupLast {V : Type} : List (String × V) → String → Option V
  | [], _ => none
  | p :: ps, k =>
      optOrElse (pairsLookupLast ps k) (if p.1 = k then some p.2 else none)

/-! ## The pipeline engine: `Pipeline.process` -/

/-- Errors the engine can surface.  `missingKey k` models the Python
`KeyError` on `data_dict[k]` (the spec names it `MissingKeyError`);
`typeError` models the `TypeError` from an unsupported comparison. -/
inductive PErr where
  | missingKey : String → PErr
  | typeError : PErr
deriving DecidableEq, Repr

/-- The value returned by a step's `run`: either a single object or a
list/tuple of objects (Python `isinstance(outp, (list, tuple))`). -/
inductive StepOut (V : Type) where
  | single : V → StepOut V
  | seq : List V → StepOut V

/-- `if not isinstance(outp, (list, tuple)): outp = [outp]`. -/
def StepOut.normalize {V : Type} : StepOut V → List V
  | .single v => [v]
  | .seq l => l

/-- One configured runtime pipeline step, as `Pipeline.process` sees it:
declared input keys (`step['input']`), declared output keys
(`step.get('output', [])`), and the instance's `run` method. -/
structure Step (V : Type) where
  name : String
  input : List String
  output : List String
  runFn : List V → StepOut V

/-- `[data_dict[k] for k in step['input']]`: the first absent key raises
`KeyError` (spec: `MissingKeyError`). -/
def getInputs {V : Type} (f : Frame V) : List String → Except PErr (List V)
  | [] => .ok []
  | k :: ks =>
      match Frame.lookup f k with
      | none => .error (.missingKey k)
      | some v =>
          match getInputs f ks with
          | .error e => .error e
          | .ok vs => .ok (v :: vs)

/-- One iteration of the `for step in self.pipeline` loop: look up the
inputs, run the step, normalize, zip with the output keys and merge the
pairs into the frame. -/
def runStepFrame {V : Type} (s : Step V) (f : Frame V) : Except PErr (Frame V) :=
  match getInputs f s.input with
  | .error e => .error e
  | .ok ins =>
      .ok (Frame.updatePairs f (s.output.zip (StepOut.normalize (s.runFn ins))))

/-- The step loop of `Pipeline.process`, keeping the frame as mutated so
far: on failure it returns the frame the caller's dict now holds,
together with the error. -/
def processAux {V : Type} : List (Step V) → Frame V → Frame V × Option PErr
  | [], f => (f, none)
  | s :: rest, f =>
      match runStepFrame s f with
      | .error e => (f, some e)
      | .ok f₂ => processAux rest f₂

/-- `Pipeline.process(data_dict)`.  The first line
`struct.pack('i', data_dict['image_number'])` reads `image_number` from
the frame (its packed value is never used afterwards), so an absent
`image_number` raises before any step runs; then the step loop runs and
the (mutated) frame is returned. -/
def process {V : Type} (steps : List (Step V)) (data_dict : Frame V) :
    Except PErr (Frame V) :=
  match Frame.lookup data_dict "image_number" with
  | none => .error (.missingKey "image_number")
  | some _ =>
      match processAux steps data_dict with
      | (f, none) => .ok f
      | (_, some e) => .error e

/-! ## numpy arrays over exact rationals -/

/-- A numpy array: its shape and its flattened (C-order) data.  The
steps only use `ravel`, `reshape` and `size`, so strides need not be
modelled. -/
structure NDArray (α : Type) where
  shape : List Nat
  data : List α
deriving Repr, DecidableEq

/-- `array.size`: the number of elements. -/
def NDArray.size {α : Type} (a : NDArray α) : Nat := a.data.length

/-- `array.ravel()`: the flattened data. -/
def NDArray.ravel {α : Type} (a : NDArray α) : List α := a.data

/-- `np.mean(xs)` of a rational vector (0 when empty, like the 0/0
convention of rational division here; the steps never take the mean of
an empty vector). -/
def qMean (xs : List ℚ) : ℚ := xs.sum / (xs.length : ℚ)

/-- `np.var(xs)` with `ddof=0`: the population variance. -/
def qPopVar (xs : List ℚ) : ℚ :=
  ((xs.map (fun x => (x - qMean xs) ^ 2)).sum) / (xs.length : ℚ)

/-- `np.std(xs)` with `ddof=0`: the population standard deviation, the
real square root of the population variance. -/
noncomputable def popStd (xs : List ℚ) : ℝ := Real.sqrt ((qPopVar xs : ℚ) : ℝ)

/-- Column `j` of a stack of flattened rows. -/
def colAt (rows : List (List ℚ)) (j : Nat) : List ℚ :=
  rows.map (fun row => row.getD j 0)

/-- `np.mean(rows, 0)` for a stack of shape `(len rows, size)`. -/
def stackMean (rows : List (List ℚ)) (size : Nat) : List ℚ :=
  (List.range size).map (fun j => qMean (colAt rows j))

/-- `np.std(rows, 0)` for a stack of shape `(len rows, size)`. -/
noncomputable def stackStd (rows : List (List ℚ)) (size : Nat) : List ℝ :=
  (List.range size).map (fun j => popStd (colAt rows j))

/-! ## IncrementalMeanStd -/

/-- Modelled from the spec: `BufferedArray` (module `buffered_array`,
not part of the sources at hand) is an append-only ordered sequence of
flattened numeric vectors of a fixed per-frame width; `append` stores a
flattened copy at the end and `get_array()` returns all stored vectors
stacked in arrival order. -/
structure BufferedArray where
  size : Nat
  rows : List (List ℚ)
deriving Repr, DecidableEq

/-- Modelled from the spec: `BufferedArray.append` stores a flattened
copy of the vector, preserving arrival order. -/
def BufferedArray.append (b : BufferedArray) (v : List ℚ) : BufferedArray :=
  ⟨b.size, b.rows ++ [v]⟩

/-- Modelled from the spec: `BufferedArray.get_array()` returns all
stored vectors stacked in arrival order. -/
def BufferedArray.get_array (b : BufferedArray) : List (List ℚ) := b.rows

/-- The per-instance state of `IncrementalMeanStd`: `self.array_shape`
and `self.data`, both created on the first call (`hasattr` check). -/
structure IncMeanStdState where
  array_shape : List Nat
  data : BufferedArray
deriving Repr, DecidableEq

/-- `IncrementalMeanStd.run(array)`.  The state is `none` before the
first call (`not hasattr(self, 'data')`).  First call: record the
shape, start the buffer with the flattened sample, return
`(None, None)`.  Later calls: append the flattened sample, then return
`np.mean`/`np.std` over the whole buffer, reshaped to the first
sample's shape. -/
noncomputable def IncrementalMeanStd_run (st : Option IncMeanStdState)
    (array : NDArray ℚ) :
    IncMeanStdState × (Option (NDArray ℚ) × Option (NDArray ℝ)) :=
  match st with
  | none =>
      (⟨array.shape, BufferedArray.append ⟨array.size, []⟩ array.ravel⟩,
        (none, none))
  | some s =>
      let d := BufferedArray.append s.data array.ravel
      (⟨s.array_shape, d⟩,
        (some ⟨s.array_shape, stackMean d.get_array d.size⟩,
         some ⟨s.array_shape, stackStd d.get_array d.size⟩))

/-! ## RunningMeanStd -/

/-- The per-instance state of `RunningMeanStd`: `self.n`,
`self.n_skip`, `self.mean` (`None` until the first non-skipped call)
and `self.samples` (`None` until allocated; a row is `none` for a
not-a-number row and `some v` for a stored sample). -/
structure RMSState where
  n : Nat
  n_skip : Int
  mean : Option (List ℚ)
  samples : Option (List (Option (List ℚ)))

/-- The rows of the window that hold actual samples (`np.nanmean` /
`np.nanstd` ignore the not-a-number rows). -/
def presentRows (w : List (Option (List ℚ))) : List (List ℚ) :=
  w.filterMap id

/-- `np.nanmean(w, 0)`: per-column mean over the non-NaN rows. -/
def nanMeanCols (w : List (Option (List ℚ))) (size : Nat) : List ℚ :=
  stackMean (presentRows w) size

/-- `np.nanstd(w, 0)`: per-column population std over the non-NaN rows. -/
noncomputable def nanStdCols (w : List (Option (List ℚ))) (size : Nat) :
    List ℝ :=
  stackStd (presentRows w) size

/-- The window contents before the new sample is written:
`np.empty((n, size)) * np.nan` on the first non-skipped call
(`self.mean is None`), the stored window otherwise. -/
def rmsWindowBefore (st : RMSState) : List (Option (List ℚ)) :=
  match st.mean with
  | none => List.replicate st.n none
  | some _ => st.samples.getD []

/-- The column count of `self.samples`, fixed when the window is
allocated: the incoming sample's size on the first non-skipped call,
and afterwards the width of the stored mean (one mean entry per
column). -/
def rmsWidth (st : RMSState) (inp : NDArray ℚ) : Nat :=
  match st.mean with
  | none => inp.size
  | some m => m.length

/-- The window after the branch on `self.mean`: a fresh all-NaN
allocation `np.empty((n, size)) * np.nan` on the first non-skipped call,
else the stored window after `samples[:-1, :] = samples[1:, :]` (which
drops the oldest row and leaves the last row duplicated). -/
def rmsShift (st : RMSState) : List (Option (List ℚ)) :=
  match st.mean with
  | none => List.replicate st.n none
  | some _ =>
      ((st.samples.getD []).drop 1) ++ (st.samples.getD []).getLast?.toList

/-- `RunningMeanStd.run(inp, image_number=None)`.  `image_number`
defaults to `None`; `None < self.n_skip` is an unsupported comparison
(`TypeError`).  While `image_number < n_skip`: return
`(np.zeros(inp.size), np.ones(inp.size))` without touching the window.
Otherwise: take the fresh or shifted window (`rmsShift`), write the
sample into the last row (`samples[-1, :] = inp`), and return
`np.nanmean`/`np.nanstd` over the window. -/
noncomputable def RunningMeanStd_run (st : RMSState) (inp : NDArray ℚ)
    (image_number : Option Int) :
    Except PErr (RMSState × (List ℚ × List ℝ)) :=
  match image_number with
  | none => .error .typeError
  | some i =>
      if i < st.n_skip then
        .ok (st, (List.replicate inp.size (0 : ℚ), List.replicate inp.size (1 : ℝ)))
      else
        let w := (rmsShift st).dropLast ++ [some inp.ravel]
        let width := rmsWidth st inp
        let m := nanMeanCols w width
        let sd := nanStdCols w width
        .ok (⟨st.n, st.n_skip, some m, some w⟩, (m, sd))

/-! ## IEEE special values, ZScore, ActivityRatio -/

/-- A numpy floating-point value: an exact finite value, one of the two
infinities, or `nan`.  Exact rationals stand in for finite doubles;
the claims under study involve no rounding. -/
inductive Flt where
  | fin : ℚ → Flt
  | inf : Flt
  | ninf : Flt
  | nan : Flt
deriving Repr, DecidableEq

/-- A value is finite when it is neither an infinity nor `nan`. -/
def Flt.isFinite : Flt → Bool
  | .fin _ => true
  | _ => false

/-- `np.isnan`. -/
def Flt.isNan : Flt → Bool
  | .nan => true
  | _ => false

/-- IEEE addition on the modelled values. -/
def Flt.add : Flt → Flt → Flt
  | .nan, _ => .nan
  | _, .nan => .nan
  | .fin a, .fin b => .fin (a + b)
  | .fin _, .inf => .inf
  | .fin _, .ninf => .ninf
  | .inf, .fin _ => .inf
  | .inf, .inf => .inf
  | .inf, .ninf => .nan
  | .ninf, .fin _ => .ninf
  | .ninf, .inf => .nan
  | .ninf, .ninf => .ninf

/-- IEEE subtraction on the modelled values. -/
def Flt.sub : Flt → Flt → Flt
  | .nan, _ => .nan
  | _, .nan => .nan
  | .fin a, .fin b => .fin (a - b)
  | .fin _, .inf => .ninf
  | .fin _, .ninf => .inf
  | .inf, .fin _ => .inf
  | .inf, .inf => .nan
  | .inf, .ninf => .inf
  | .ninf, .fin _ => .ninf
  | .ninf, .inf => .ninf
  | .ninf, .ninf => .nan

/-- IEEE division on the modelled values (numpy semantics: dividing a
nonzero finite value by zero gives a signed infinity, `0/0` gives
`nan`, no exception is raised). -/
def Flt.div : Flt → Flt → Flt
  | .nan, _ => .nan
  | _, .nan => .nan
  | .fin a, .fin b =>
      if b = 0 then (if 0 < a then .inf else if a < 0 then .ninf else .nan)
      else .fin (a / b)
  | .fin _, .inf => .fin 0
  | .fin _, .ninf => .fin 0
  | .inf, .fin b => if 0 ≤ b then .inf else .ninf
  | .inf, .inf => .nan
  | .inf, .ninf => .nan
  | .ninf, .fin b => if 0 ≤ b then .ninf else .inf
  | .ninf, .inf => .nan
  | .ninf, .ninf => .nan

/-- `np.zeros_like(xs)`. -/
def np_zeros_like (xs : List Flt) : List Flt := xs.map (fun _ => Flt.fin 0)

/-- `ZScore.run(array, mean, std)`: if `mean is None` return
`np.zeros_like(array)`, else return `(array - mean) / std`
elementwise (a `None` std in that branch would be an unsupported
operand, hence `TypeError`). -/
def ZScore_run (array : List Flt) (mean std : Option (List Flt)) :
    Except PErr (List Flt) :=
  match mean with
  | none => .ok (np_zeros_like array)
  | some m =>
      match std with
      | none => .error .typeError
      | some s => .ok (List.zipWith Flt.div (List.zipWith Flt.sub array m) s)

/-- A scalar-or-array input, as `ActivityRatio.run` receives it
(`isinstance(x, np.ndarray)` distinguishes the two). -/
inductive NpValue where
  | scalar : Flt → NpValue
  | array : List Flt → NpValue
deriving Repr, DecidableEq

/-- `np.nanmean(xs)`: the mean of the non-`nan` entries, `nan` when
there are none. -/
def np_nanmean (xs : List Flt) : Flt :=
  let p := xs.filter (fun x => !x.isNan)
  if p.length = 0 then Flt.nan
  else Flt.div (p.foldl Flt.add (Flt.fin 0)) (Flt.fin (p.length : ℚ))

/-- The scalar an `ActivityRatio` operand is reduced to: arrays are
replaced by `np.nanmean`, scalars pass through. -/
def toScalar : NpValue → Flt
  | NpValue.scalar x => x
  | NpValue.array xs => np_nanmean xs

/-- `ActivityRatio.run(x1, x2)`: reduce array operands to their
nan-ignoring mean, then return `x1 / (x1 + x2)`. -/
def ActivityRatio_run (x1 x2 : NpValue) : Flt :=
  Flt.div (toScalar x1) (Flt.add (toScalar x1) (toScalar x2))

/-! ## Pipeline.build -/

/-- One entry of the `pipeline` / `static_pipeline` configuration
lists, as `Pipeline.build` reads it: `step['name']`,
`step.get('args', ())`, `step.get('kwargs', {})`, and the constructor
reached through `pipeline_utils.load_class(step['class_name'])`
(abstracted as a fallible function of the positional and merged keyword
arguments; `none` models any exception escaping class lookup or
construction). -/
structure StepSpec (V I : Type) where
  name : String
  args : List V
  kwargs : List (String × V)
  construct : List V → List (String × V) → Option I

/-- A build-time failure (the spec's `StepConstructionError`),
carrying the name of the step whose construction raised. -/
inductive BuildErr where
  | stepConstructionError : String → BuildErr
deriving DecidableEq, Repr

/-- A constructed step retained by the build: its name, its instance
and the keyword arguments it was constructed with. -/
structure BuiltStep (V I : Type) where
  name : String
  inst : I
  mergedKwargs : List (String × V)

/-- The kwargs merge of `Pipeline.build`:
`for k, v in global_parameters.items(): kwargs[k] = kwargs.get(k, v)` —
every write targets the step's kwargs dict, never the global map. -/
def mergeGlobals {V : Type} (kwargs globals : List (String × V)) :
    List (String × V) :=
  globals.foldl
    (fun acc kv => Frame.insert acc kv.1 (Option.getD (Frame.lookup acc kv.1) kv.2))
    kwargs

/-- One of the two `for step in ...` construction loops of
`Pipeline.build`: merge the globals into the step's kwargs, construct
the step, and stop at the first failure. -/
def buildSteps {V I : Type} (globals : List (String × V)) :
    List (StepSpec V I) → Except BuildErr (List (BuiltStep V I))
  | [] => .ok []
  | s :: rest =>
      let kw := mergeGlobals s.kwargs globals
      match s.construct s.args kw with
      | none => .error (BuildErr.stepConstructionError s.name)
      | some inst =>
          match buildSteps globals rest with
          | .error e => .error e
          | .ok bs => .ok (⟨s.name, inst, kw⟩ :: bs)

/-- The pipeline object a successful build produces:
`self.static_pipeline`, `self.pipeline` and `self.global_parameters`. -/
structure PipelineB (V I : Type) where
  static_pipeline : List (BuiltStep V I)
  pipeline : List (BuiltStep V I)
  global_parameters : List (String × V)

/-- `Pipeline.build(pipeline, static_pipeline, global_parameters)`:
construct the static steps, then the runtime steps, then store the
global-parameter map; any construction failure escapes immediately, so
a failed build yields no pipeline object at all. -/
def Pipeline_build {V I : Type} (static_pipeline pipeline : List (StepSpec V I))
    (global_parameters : List (String × V)) :
    Except BuildErr (PipelineB V I) :=
  match buildSteps global_parameters static_pipeline with
  | .error e => .error e
  | .ok st =>
      match buildSteps global_parameters pipeline with
      | .error e => .error e
      | .ok dyn => .ok ⟨st, dyn, global_parameters⟩

/-! ### Frame lemmas -/

theorem Frame.lookup_insert {V : Type} (f : Frame V) (k : String) (v : V)
    (key : String) :
    Frame.lookup (Frame.insert f k v) key
      = if key = k then some v else Frame.lookup f key := by
  induction f with
  | nil =>
      simp only [Frame.insert, Frame.lookup]
      by_cases h : k = key
      · simp [h]
      · have h2 : ¬ key = k := fun hh => h hh.symm
        simp [h, h2]
  | cons p rest ih =>
      obtain ⟨k0, v0⟩ := p
      by_cases h0 : k0 = k
      · subst h0
        simp only [Frame.insert, if_pos rfl]
        by_cases h : k0 = key
        · subst h
          simp [Frame.lookup]
        · have h2 : ¬ key = k0 := fun hh => h hh.symm
          simp [Frame.lookup, h, h2]
      · simp only [Frame.insert, if_neg h0]
        by_cases h : k0 = key
        · subst h
          simp [Frame.lookup, h0]
        · simp [Frame.lookup, h, ih]

theorem Frame.lookup_updatePairs {V : Type} (ps : List (String × V))
    (f : Frame V) (k : String) :
    Frame.lookup (Frame.updatePairs f ps) k
      = optOrElse (pairsLookupLast ps k) (Frame.lookup f k) := by
  induction ps generalizing f with
  | nil => simp [Frame.updatePairs, pairsLookupLast, optOrElse]
  | cons p ps ih =>
      have hstep : Frame.updatePairs f (p :: ps)
          = Frame.updatePairs (Frame.insert f p.1 p.2) ps := rfl
      rw [hstep, ih, pairsLookupLast]
      cases hps : pairsLookupLast ps k with
      | some v => simp [optOrElse]
      | none =>
          simp only [optOrElse]
          rw [Frame.lookup_insert]
          by_cases h : k = p.1
          · subst h
            simp
          · have h2 : ¬ p.1 = k := fun hh => absurd hh.symm h
            simp [h, h2]

theorem getInputs_error_mem {V : Type} (f : Frame V) (keys : List String)
    (k : String) (h : getInputs f keys = .error (.missingKey k)) :
    k ∈ keys ∧ Frame.lookup f k = none := by
  induction keys with
  | nil => simp [getInputs] at h
  | cons k0 ks ih =>
      rw [getInputs] at h
      cases hl : Frame.lookup f k0 with
      | none =>
          rw [hl] at h
          have hk : k0 = k := by simpa using h
          subst hk
          exact ⟨List.mem_cons_self _ _, hl⟩
      | some v =>
          rw [hl] at h
          cases hrec : getInputs f ks with
          | error e =>
              rw [hrec] at h
              simp at h
              subst h
              obtain ⟨hmem, hnone⟩ := ih hrec
              exact ⟨List.mem_cons_of_mem _ hmem, hnone⟩
          | ok vs =>
              rw [hrec] at h
              simp at h

theorem getInputs_ok_of_present {V : Type} (f : Frame V) (keys : List String)
    (h : ∀ k ∈ keys, (Frame.lookup f k).isSome) :
    ∃ vs, getInputs f keys = .ok vs := by
  induction keys with
  | nil => exact ⟨[], rfl⟩
  | cons k0 ks ih =>
      have h0 := h k0 (List.mem_cons_self _ _)
      cases hl : Frame.lookup f k0 with
      | none => rw [hl] at h0; simp at h0
      | some v =>
          obtain ⟨vs, hvs⟩ := ih (fun k hk => h k (List.mem_cons_of_mem _ hk))
          exact ⟨v :: vs, by rw [getInputs, hl, hvs]⟩

theorem processAux_append {V : Type} (pre rest : List (Step V))
    (f f₁ : Frame V) (h : processAux pre f = (f₁, none)) :
    processAux (pre ++ rest) f = processAux rest f₁ := by
  induction pre generalizing f with
  | nil =>
      simp [processAux] at h
      rw [List.nil_append, h]
  | cons s pre ih =>
      rw [List.cons_append, processAux]
      rw [processAux] at h
      cases hs : runStepFrame s f with
      | error e => rw [hs] at h; simp at h
      | ok f₂ =>
          rw [hs] at h
          exact ih f₂ h

theorem processAux_append_error {V : Type} (pre post : List (Step V))
    (s : Step V) (f f₁ : Frame V) (e : PErr)
    (h : processAux pre f = (f₁, none)) (hs : runStepFrame s f₁ = .error e) :
    processAux (pre ++ s :: post) f = (f₁, some e) := by
  rw [processAux_append pre (s :: post) f f₁ h, processAux, hs]

/-! ### Claim theorems for the execution engine -/

/-- C1: In `Pipeline.process`, once a step's inputs are found, a
return value that is not a list or tuple is normalized to a one-element
sequence; the normalized outputs are zipped positionally with the
declared output keys, extras on either side silently dropped (never an
error); and the resulting pairs are merged into the frame, overwriting
same-named keys.  In particular a step returning 3 values with 2
declared output keys binds exactly those 2 keys. -/
theorem c1_output_binding {V : Type} (s : Step V) (f : Frame V) (ins : List V)
    (h : getInputs f s.input = .ok ins) :
    runStepFrame s f
        = .ok (Frame.updatePairs f (s.output.zip (StepOut.normalize (s.runFn ins)))) ∧
    (∀ v : V, StepOut.normalize (StepOut.single v) = [v]) ∧
    (s.output.zip (StepOut.normalize (s.runFn ins))).length
        = min s.output.length (StepOut.normalize (s.runFn ins)).length ∧
    (∀ k, Frame.lookup
            (Frame.updatePairs f (s.output.zip (StepOut.normalize (s.runFn ins)))) k
        = optOrElse (pairsLookupLast (s.output.zip (StepOut.normalize (s.runFn ins))) k)
            (Frame.lookup f k)) ∧
    (∀ k1 k2 v1 v2 v3, s.output = [k1, k2] →
        s.runFn ins = StepOut.seq [v1, v2, v3] →
        runStepFrame s f = .ok (Frame.updatePairs f [(k1, v1), (k2, v2)])) := by
  refine ⟨?_, fun v => rfl, ?_, ?_, ?_⟩
  · rw [runStepFrame, h]
  · exact List.length_zip _ _
  · exact fun k => Frame.lookup_updatePairs _ _ _
  · intro k1 k2 v1 v2 v3 ho hr
    rw [runStepFrame, h]
    show Except.ok (Frame.updatePairs f (s.output.zip (StepOut.normalize (s.runFn ins)))) = _
    rw [ho, hr]
    rfl

/-- Witness for C1: a step with declared output keys `a`, `b` whose run
returns the three values `1, 2, 3` binds exactly `a ↦ 1` and `b ↦ 2`. -/
theorem c1_output_binding_witness :
    runStepFrame
        (⟨"three", ["x"], ["a", "b"], fun _ => StepOut.seq [1, 2, 3]⟩ : Step Nat)
        [("x", 0)]
      = .ok (Frame.updatePairs [("x", 0)] [("a", 1), ("b", 2)]) :=
  (c1_output_binding
      (⟨"three", ["x"], ["a", "b"], fun _ => StepOut.seq [1, 2, 3]⟩ : Step Nat)
      [("x", 0)] [0] (by rfl)).2.2.2.2 "a" "b" 1 2 3 rfl rfl

/-- C2: `Pipeline.process` looks the declared input keys up in the
frame, in step order; an absent key fails the frame with the missing-key
error (Python `KeyError`, the spec's `MissingKeyError`), which names an
absent declared key, is fatal to that frame (the match holds for every
list of later steps, none of which runs) and is surfaced to the caller
unchanged. -/
theorem c2_missing_input_key {V : Type} :
    (∀ (f : Frame V) (keys : List String) (k : String),
        getInputs f keys = .error (PErr.missingKey k) →
        k ∈ keys ∧ Frame.lookup f k = none) ∧
    (∀ (f : Frame V) (keys : List String),
        (∀ k ∈ keys, (Frame.lookup f k).isSome) →
        ∃ vs, getInputs f keys = .ok vs) ∧
    (∀ (pre post : List (Step V)) (s : Step V) (f f₁ : Frame V) (k : String),
        (Frame.lookup f "image_number").isSome →
        processAux pre f = (f₁, none) →
        getInputs f₁ s.input = .error (PErr.missingKey k) →
        process (pre ++ s :: post) f = .error (PErr.missingKey k)) := by
  refine ⟨getInputs_error_mem, getInputs_ok_of_present, ?_⟩
  intro pre post s f f₁ k himg hpre hmiss
  have hs : runStepFrame s f₁ = .error (PErr.missingKey k) := by
    rw [runStepFrame, hmiss]
  have hp := processAux_append_error pre post s f f₁ _ hpre hs
  unfold process
  cases hi : Frame.lookup f "image_number" with
  | none => rw [hi] at himg; simp at himg
  | some v => rw [hp]

/-- Witness for C2: a one-step pipeline whose step declares the absent
input key `missing` fails with exactly that missing-key error. -/
theorem c2_missing_input_key_witness :
    process ([⟨"s", ["missing"], [], fun _ => StepOut.single 0⟩] : List (Step Nat))
        [("image_number", 7)]
      = .error (PErr.missingKey "missing") :=
  c2_missing_input_key.2.2 [] []
    (⟨"s", ["missing"], [], fun _ => StepOut.single 0⟩ : Step Nat)
    [("image_number", 7)] [("image_number", 7)] "missing"
    (by decide) rfl (by rfl)

/-- C9: `Pipeline.process` returns, on success, exactly the frame as
mutated by the step loop; and when the input lookup of a step fails,
the frame the caller's dict holds is the one produced by all the steps
before it — already containing their merged outputs, not rolled back to
the frame's pre-call contents. -/
theorem c9_no_rollback {V : Type} :
    (∀ (steps : List (Step V)) (f f₂ : Frame V),
        (Frame.lookup f "image_number").isSome →
        processAux steps f = (f₂, none) →
        process steps f = .ok f₂) ∧
    (∀ (pre post : List (Step V)) (s : Step V) (f f₁ : Frame V) (e : PErr),
        processAux pre f = (f₁, none) →
        runStepFrame s f₁ = .error e →
        processAux (pre ++ s :: post) f = (f₁, some e) ∧
        (processAux (pre ++ s :: post) f).1 = (processAux pre f).1) := by
  constructor
  · intro steps f f₂ himg haux
    unfold process
    cases hi : Frame.lookup f "image_number" with
    | none => rw [hi] at himg; simp at himg
    | some v => rw [haux]
  · intro pre post s f f₁ e hpre hs
    have hp := processAux_append_error pre post s f f₁ e hpre hs
    exact ⟨hp, by rw [hp, hpre]⟩

/-- Witness for C9: the first step's output `a ↦ 1` is already merged
into the caller's frame when the second step's lookup of `z` fails. -/
theorem c9_no_rollback_witness :
    processAux
        ([⟨"first", ["x"], ["a"], fun _ => StepOut.single 1⟩,
          ⟨"second", ["z"], [], fun _ => StepOut.single 0⟩] : List (Step Nat))
        [("x", 5)]
      = ([("x", 5), ("a", 1)], some (PErr.missingKey "z")) :=
  (c9_no_rollback.2
    [⟨"first", ["x"], ["a"], fun _ => StepOut.single 1⟩] []
    (⟨"second", ["z"], [], fun _ => StepOut.single 0⟩ : Step Nat)
    [("x", 5)] [("x", 5), ("a", 1)] (PErr.missingKey "z")
    (by rfl) (by rfl)).1

/-! ### Build lemmas -/

theorem lookup_mergeGlobals {V : Type} (g kw : List (String × V)) (k : String) :
    Frame.lookup (mergeGlobals kw g) k
      = optOrElse (Frame.lookup kw k) (Frame.lookup g k) := by
  induction g generalizing kw with
  | nil =>
      cases h : Frame.lookup kw k <;>
        simp [mergeGlobals, Frame.lookup, optOrElse, h]
  | cons p g ih =>
      obtain ⟨k0, v0⟩ := p
      have hstep : mergeGlobals kw ((k0, v0) :: g)
          = mergeGlobals
              (Frame.insert kw k0 (Option.getD (Frame.lookup kw k0) v0)) g := rfl
      rw [hstep, ih, Frame.lookup_insert]
      by_cases hk : k = k0
      · subst hk
        simp only [Frame.lookup, if_pos rfl]
        cases h : Frame.lookup kw k <;> simp [optOrElse, h]
      · have hk2 : ¬ k0 = k := fun hh => hk hh.symm
        simp [Frame.lookup, hk, hk2]

theorem buildSteps_ok_spec {V I : Type} (g : List (String × V))
    (specs : List (StepSpec V I)) (bs : List (BuiltStep V I))
    (h : buildSteps g specs = .ok bs) :
    bs.map (fun b => b.mergedKwargs) = specs.map (fun s => mergeGlobals s.kwargs g) ∧
    bs.length = specs.length := by
  induction specs generalizing bs with
  | nil =>
      simp only [buildSteps, Except.ok.injEq] at h
      subst h
      simp
  | cons s specs ih =>
      simp only [buildSteps] at h
      cases hc : s.construct s.args (mergeGlobals s.kwargs g) with
      | none => rw [hc] at h; simp at h
      | some inst =>
          rw [hc] at h
          cases hr : buildSteps g specs with
          | error e => rw [hr] at h; simp at h
          | ok bs2 =>
              rw [hr] at h
              simp only [Except.ok.injEq] at h
              subst h
              obtain ⟨hmap, hlen⟩ := ih bs2 hr
              simp [hmap, hlen]

theorem buildSteps_append {V I : Type} (g : List (String × V))
    (pre rest : List (StepSpec V I)) (bs : List (BuiltStep V I))
    (h : buildSteps g pre = .ok bs) :
    buildSteps g (pre ++ rest)
      = match buildSteps g rest with
        | .error e => .error e
        | .ok bs2 => .ok (bs ++ bs2) := by
  induction pre generalizing bs with
  | nil =>
      simp only [buildSteps, Except.ok.injEq] at h
      subst h
      rw [List.nil_append]
      cases hr : buildSteps g rest <;> simp
  | cons s pre ih =>
      simp only [buildSteps] at h
      cases hc : s.construct s.args (mergeGlobals s.kwargs g) with
      | none => rw [hc] at h; simp at h
      | some inst =>
          rw [hc] at h
          cases hp : buildSteps g pre with
          | error e => rw [hp] at h; simp at h
          | ok bs1 =>
              rw [hp] at h
              simp only [Except.ok.injEq] at h
              subst h
              rw [List.cons_append]
              simp only [buildSteps, hc, ih bs1 hp]
              cases hr : buildSteps g rest <;> simp

/-! ### Claim theorems for `Pipeline.build` -/

/-- C5: `Pipeline.build` merges the global parameters into each step's
keyword arguments with explicit step kwargs taking precedence over
same-named globals (the merged lookup is the step's own binding when it
has one, the global binding otherwise); every constructed step receives
exactly that merge; and the shared global-parameter map is stored
unchanged by the build. -/
theorem c5_kwargs_precedence {V I : Type} :
    (∀ (kw g : List (String × V)) (k : String),
        Frame.lookup (mergeGlobals kw g) k
          = optOrElse (Frame.lookup kw k) (Frame.lookup g k)) ∧
    (∀ (kw g : List (String × V)) (k : String) (v : V),
        Frame.lookup kw k = some v →
        Frame.lookup (mergeGlobals kw g) k = some v) ∧
    (∀ (g : List (String × V)) (specs : List (StepSpec V I))
        (bs : List (BuiltStep V I)),
        buildSteps g specs = .ok bs →
        bs.map (fun b => b.mergedKwargs)
          = specs.map (fun s => mergeGlobals s.kwargs g)) ∧
    (∀ (static_specs dyn_specs : List (StepSpec V I))
        (g : List (String × V)) (p : PipelineB V I),
        Pipeline_build static_specs dyn_specs g = .ok p →
        p.global_parameters = g) := by
  refine ⟨fun kw g k => lookup_mergeGlobals g kw k, ?_, ?_, ?_⟩
  · intro kw g k v hv
    rw [lookup_mergeGlobals, hv]
    rfl
  · exact fun g specs bs h => (buildSteps_ok_spec g specs bs h).1
  · intro static_specs dyn_specs g p h
    unfold Pipeline_build at h
    cases hs : buildSteps g static_specs with
    | error e => rw [hs] at h; simp at h
    | ok st =>
        rw [hs] at h
        cases hd : buildSteps g dyn_specs with
        | error e => rw [hd] at h; simp at h
        | ok dyn =>
            rw [hd] at h
            simp only [Except.ok.injEq] at h
            rw [← h]

/-- Witness for C5: a step kwarg `a ↦ 1` survives a same-named global
`a ↦ 9`. -/
theorem c5_kwargs_precedence_witness :
    Frame.lookup (mergeGlobals [("a", 1)] [("a", 9), ("b", 2)]) "a" = some 1 :=
  (@c5_kwargs_precedence Nat Nat).2.1 [("a", 1)] [("a", 9), ("b", 2)] "a" 1 (by rfl)

/-- C6: if constructing any step fails, `Pipeline.build` fails with the
construction error for that step and the whole build is aborted — a
successful build always constructs every declared step (static and
runtime), and a failed build produces no pipeline at all. -/
theorem c6_build_aborts {V I : Type} :
    (∀ (g : List (String × V)) (specs : List (StepSpec V I))
        (bs : List (BuiltStep V I)),
        buildSteps g specs = .ok bs → bs.length = specs.length) ∧
    (∀ (g : List (String × V)) (pre : List (StepSpec V I)) (s : StepSpec V I)
        (post : List (StepSpec V I)) (bs : List (BuiltStep V I)),
        buildSteps g pre = .ok bs →
        s.construct s.args (mergeGlobals s.kwargs g) = none →
        buildSteps g (pre ++ s :: post)
          = .error (BuildErr.stepConstructionError s.name)) ∧
    (∀ (static_specs dyn_specs : List (StepSpec V I))
        (g : List (String × V)) (p : PipelineB V I),
        Pipeline_build static_specs dyn_specs g = .ok p →
        p.static_pipeline.length = static_specs.length ∧
        p.pipeline.length = dyn_specs.length) ∧
    (∀ (static_specs dyn_specs : List (StepSpec V I))
        (g : List (String × V)) (e : BuildErr),
        buildSteps g static_specs = .error e →
        Pipeline_build static_specs dyn_specs g = .error e) ∧
    (∀ (static_specs dyn_specs : List (StepSpec V I))
        (g : List (String × V)) (st : List (BuiltStep V I)) (e : BuildErr),
        buildSteps g static_specs = .ok st →
        buildSteps g dyn_specs = .error e →
        Pipeline_build static_specs dyn_specs g = .error e) := by
  refine ⟨fun g specs bs h => (buildSteps_ok_spec g specs bs h).2, ?_, ?_, ?_, ?_⟩
  · intro g pre s post bs hpre hc
    rw [buildSteps_append g pre (s :: post) bs hpre]
    simp only [buildSteps, hc]
  · intro static_specs dyn_specs g p h
    unfold Pipeline_build at h
    cases hs : buildSteps g static_specs with
    | error e => rw [hs] at h; simp at h
    | ok st =>
        rw [hs] at h
        cases hd : buildSteps g dyn_specs with
        | error e => rw [hd] at h; simp at h
        | ok dyn =>
            rw [hd] at h
            simp only [Except.ok.injEq] at h
            rw [← h]
            exact ⟨(buildSteps_ok_spec g static_specs st hs).2,
                   (buildSteps_ok_spec g dyn_specs dyn hd).2⟩
  · intro static_specs dyn_specs g e hs
    unfold Pipeline_build
    rw [hs]
  · intro static_specs dyn_specs g st e hs hd
    unfold Pipeline_build
    rw [hs, hd]

/-- Witness for C6: a one-step spec whose constructor fails makes the
whole build fail with that step's construction error. -/
theorem c6_build_aborts_witness :
    buildSteps ([] : List (String × Nat))
        [(⟨"bad", [], [], fun _ _ => none⟩ : StepSpec Nat Nat)]
      = .error (BuildErr.stepConstructionError "bad") :=
  (@c6_build_aborts Nat Nat).2.1 [] []
    (⟨"bad", [], [], fun _ _ => none⟩ : StepSpec Nat Nat) [] [] rfl rfl

/-! ### Floating-point step lemmas -/

theorem flt_div_zero_not_finite (x : Flt) :
    (Flt.div x (Flt.fin 0)).isFinite = false := by
  cases x with
  | fin a =>
      simp only [Flt.div, if_pos rfl]
      split_ifs <;> rfl
  | inf => simp [Flt.div, Flt.isFinite]
  | ninf => simp [Flt.div, Flt.isFinite]
  | nan => rfl

/-! ### Claim theorems for ZScore, ActivityRatio, RunningMeanStd arity -/

/-- C7: `ZScore.run(array, mean, std)` returns a zero array of the
array's shape when `mean is None` (whatever `std` is); otherwise it
computes `(array - mean) / std` elementwise; a zero `std` entry yields
a non-finite value — no epsilon smoothing.  In particular
`ZScore([5], None, None) = [0]` and `ZScore([5], [3], [2]) = [1.0]`. -/
theorem c7_zscore_run :
    (∀ (arr : List Flt) (std : Option (List Flt)),
        ZScore_run arr none std = .ok (arr.map (fun _ => Flt.fin 0))) ∧
    (∀ arr m s : List Flt,
        ZScore_run arr (some m) (some s)
          = .ok (List.zipWith Flt.div (List.zipWith Flt.sub arr m) s)) ∧
    (∀ x : Flt, (Flt.div x (Flt.fin 0)).isFinite = false) ∧
    ZScore_run [Flt.fin 5] none none = .ok [Flt.fin 0] ∧
    ZScore_run [Flt.fin 5] (some [Flt.fin 3]) (some [Flt.fin 2])
      = .ok [Flt.fin 1] := by
  refine ⟨fun arr std => rfl, fun arr m s => rfl, flt_div_zero_not_finite, rfl, ?_⟩
  show Except.ok [Flt.div (Flt.sub (Flt.fin 5) (Flt.fin 3)) (Flt.fin 2)] = _
  norm_num [Flt.sub, Flt.div]

/-- C8: `ActivityRatio.run` first reduces array operands to their
nan-ignoring mean, then returns `x1 / (x1 + x2)`; a zero sum raises no
error and leaves the standard non-finite result unmodified. -/
theorem c8_activity_quotient_run :
    (∀ x1 x2 : NpValue,
        ActivityRatio_run x1 x2
          = Flt.div (toScalar x1) (Flt.add (toScalar x1) (toScalar x2))) ∧
    (∀ xs : List Flt, toScalar (NpValue.array xs) = np_nanmean xs) ∧
    (∀ x1 x2 : NpValue,
        Flt.add (toScalar x1) (toScalar x2) = Flt.fin 0 →
        (ActivityRatio_run x1 x2).isFinite = false) := by
  refine ⟨fun x1 x2 => rfl, fun xs => rfl, ?_⟩
  intro x1 x2 h
  show (Flt.div (toScalar x1) (Flt.add (toScalar x1) (toScalar x2))).isFinite = false
  rw [h]
  exact flt_div_zero_not_finite _

/-- Witness for C8: inputs `1` and `-1` sum to zero; the result is
non-finite and no error is raised. -/
theorem c8_activity_quotient_run_witness :
    (ActivityRatio_run (NpValue.scalar (Flt.fin 1))
        (NpValue.scalar (Flt.fin (-1)))).isFinite = false :=
  c8_activity_quotient_run.2.2 (NpValue.scalar (Flt.fin 1))
    (NpValue.scalar (Flt.fin (-1))) (by norm_num [toScalar, Flt.add])

/-- C10: `RunningMeanStd.run` declares `image_number` as optional with
default `None`, but `None < self.n_skip` is an unsupported comparison:
every call without an explicit frame index fails (`TypeError`), for
every state and every input. -/
theorem c10_image_number_required :
    ∀ (st : RMSState) (inp : NDArray ℚ),
      RunningMeanStd_run st inp none = .error PErr.typeError :=
  fun _ _ => rfl

/-! ### Statistics lemmas -/

theorem map_congr_mem {α β : Type} (l : List α) (f g : α → β)
    (h : ∀ x ∈ l, f x = g x) : l.map f = l.map g := by
  induction l with
  | nil => rfl
  | cons a l ih =>
      simp only [List.map]
      rw [h a (List.mem_cons_self _ _),
          ih (fun x hx => h x (List.mem_cons_of_mem _ hx))]

theorem colAt_length (rows : List (List ℚ)) (j : Nat) :
    (colAt rows j).length = rows.length := by
  rw [colAt]
  exact List.length_map _ _

theorem qMean_pair (u v : ℚ) : qMean [u, v] = (u + v) / 2 := by
  simp [qMean]

theorem qPopVar_pair (u v : ℚ) : qPopVar [u, v] = (u - v) ^ 2 / 4 := by
  simp only [qPopVar, qMean_pair, List.map_cons, List.map_nil, List.sum_cons,
    List.sum_nil, List.length_cons, List.length_nil]
  push_cast
  ring

theorem popStd_pair (u v : ℚ) : popStd [u, v] = |(u : ℝ) - (v : ℝ)| / 2 := by
  rw [popStd, qPopVar_pair]
  push_cast
  rw [show ((u : ℝ) - (v : ℝ)) ^ 2 / 4 = (((u : ℝ) - (v : ℝ)) / 2) ^ 2 by ring]
  rw [Real.sqrt_sq_eq_abs, abs_div]
  norm_num

theorem qMean_single (u : ℚ) : qMean [u] = u := by
  simp [qMean]

theorem qMean_triple (u v w : ℚ) : qMean [u, v, w] = (u + v + w) / 3 := by
  simp only [qMean, List.sum_cons, List.sum_nil, List.length_cons,
    List.length_nil]
  push_cast
  ring

/-! ### Claim theorem for IncrementalMeanStd -/

/-- C3: the first `IncrementalMeanStd.run` call returns the sentinel
`(None, None)` and records the flattened sample (fixing the shape and
the width); every later call appends the new flattened sample and
returns the population mean and population standard deviation over the
entire historical buffer — per column, sum over all buffered rows
divided by the row count, and the square root of the mean squared
deviation — reshaped to the first sample's shape.  After two samples
the mean is the elementwise average and the std the population
standard deviation `|a - b| / 2`. -/
theorem c3_incremental_mean_std :
    (∀ a : NDArray ℚ,
        IncrementalMeanStd_run none a
          = (⟨a.shape, ⟨a.size, [a.ravel]⟩⟩, (none, none))) ∧
    (∀ (s : IncMeanStdState) (a : NDArray ℚ),
        IncrementalMeanStd_run (some s) a
          = (⟨s.array_shape, ⟨s.data.size, s.data.rows ++ [a.ravel]⟩⟩,
              (some ⟨s.array_shape,
                      stackMean (s.data.rows ++ [a.ravel]) s.data.size⟩,
               some ⟨s.array_shape,
                      stackStd (s.data.rows ++ [a.ravel]) s.data.size⟩))) ∧
    (∀ (rows : List (List ℚ)) (size : Nat),
        stackMean rows size
          = (List.range size).map
              (fun j => (colAt rows j).sum / (rows.length : ℚ)) ∧
        stackStd rows size
          = (List.range size).map (fun j =>
              Real.sqrt
                ((((colAt rows j).map
                    (fun x => (x - qMean (colAt rows j)) ^ 2)).sum
                  / (rows.length : ℚ) : ℚ) : ℝ))) ∧
    (∀ a b : NDArray ℚ,
        (IncrementalMeanStd_run (some (IncrementalMeanStd_run none a).1) b).2
          = (some ⟨a.shape, (List.range a.size).map
                (fun j => (a.data.getD j 0 + b.data.getD j 0) / 2)⟩,
             some ⟨a.shape, (List.range a.size).map
                (fun j => |(a.data.getD j 0 : ℝ) - (b.data.getD j 0 : ℝ)| / 2)⟩)) := by
  refine ⟨fun a => rfl, fun s a => rfl, ?_, ?_⟩
  · intro rows size
    constructor
    · apply map_congr_mem
      intro j hj
      rw [qMean, colAt_length]
    · apply map_congr_mem
      intro j hj
      rw [popStd, qPopVar, colAt_length]
  · intro a b
    show (some (⟨a.shape, stackMean [a.ravel, b.ravel] a.size⟩ : NDArray ℚ),
          some (⟨a.shape, stackStd [a.ravel, b.ravel] a.size⟩ : NDArray ℝ)) = _
    have hm : stackMean [a.ravel, b.ravel] a.size
        = (List.range a.size).map
            (fun j => (a.data.getD j 0 + b.data.getD j 0) / 2) := by
      apply map_congr_mem
      intro j hj
      show qMean [a.data.getD j 0, b.data.getD j 0] = _
      rw [qMean_pair]
    have hs : stackStd [a.ravel, b.ravel] a.size
        = (List.range a.size).map
            (fun j => |(a.data.getD j 0 : ℝ) - (b.data.getD j 0 : ℝ)| / 2) := by
      apply map_congr_mem
      intro j hj
      show popStd [a.data.getD j 0, b.data.getD j 0] = _
      rw [popStd_pair]
    rw [hm, hs]

/-! ### Window lemmas for RunningMeanStd -/

theorem replicate_dropLast_drop {α : Type} : ∀ (n : Nat) (c : α),
    (List.replicate n c).dropLast = (List.replicate n c).drop 1
  | 0, _ => rfl
  | 1, _ => rfl
  | (n + 2), c => by
      show c :: (List.replicate (n + 1) c).dropLast = List.replicate (n + 1) c
      rw [replicate_dropLast_drop (n + 1) c]
      rfl

theorem concat_getLast_dropLast {α : Type} (w : List α) :
    ((w.drop 1) ++ w.getLast?.toList).dropLast = w.drop 1 := by
  rcases List.eq_nil_or_concat w with h | ⟨l, x, h⟩
  · subst h; rfl
  · subst h
    rw [List.concat_eq_append, List.getLast?_concat]
    show ((l ++ [x]).drop 1 ++ [x]).dropLast = (l ++ [x]).drop 1
    rw [List.dropLast_concat]

theorem rmsShift_dropLast (st : RMSState) :
    (rmsShift st).dropLast = (rmsWindowBefore st).drop 1 := by
  cases hm : st.mean with
  | none =>
      unfold rmsShift rmsWindowBefore
      rw [hm]
      exact replicate_dropLast_drop st.n none
  | some m =>
      unfold rmsShift rmsWindowBefore
      rw [hm]
      exact concat_getLast_dropLast (st.samples.getD [])

theorem presentRows_append_some (w0 : List (Option (List ℚ))) (v : List ℚ) :
    presentRows (w0 ++ [some v]) = presentRows w0 ++ [v] := by
  simp [presentRows]

theorem nanMeanCols_length (w : List (Option (List ℚ))) (size : Nat) :
    (nanMeanCols w size).length = size := by
  simp [nanMeanCols, stackMean]

theorem rms_run_skip (st : RMSState) (inp : NDArray ℚ) (i : Int)
    (h : i < st.n_skip) :
    RunningMeanStd_run st inp (some i)
      = .ok (st, (List.replicate inp.size (0 : ℚ),
                  List.replicate inp.size (1 : ℝ))) := by
  simp only [RunningMeanStd_run]
  rw [if_pos h]

theorem rms_run_real (st : RMSState) (inp : NDArray ℚ) (i : Int)
    (h : ¬ i < st.n_skip) :
    RunningMeanStd_run st inp (some i)
      = .ok (⟨st.n, st.n_skip,
              some (nanMeanCols ((rmsWindowBefore st).drop 1 ++ [some inp.ravel])
                      (rmsWidth st inp)),
              some ((rmsWindowBefore st).drop 1 ++ [some inp.ravel])⟩,
             (nanMeanCols ((rmsWindowBefore st).drop 1 ++ [some inp.ravel])
                (rmsWidth st inp),
              nanStdCols ((rmsWindowBefore st).drop 1 ++ [some inp.ravel])
                (rmsWidth st inp))) := by
  simp only [RunningMeanStd_run]
  rw [if_neg h, rmsShift_dropLast]

/-! ### Claim theorem for RunningMeanStd -/

/-- C4: while the external frame index is below `n_skip`,
`RunningMeanStd.run` returns the neutral pair (zeros, ones) with the
state untouched; otherwise the window — all-NaN when fresh — is
shifted left by one, discarding the oldest slot, the new sample is
written into the last slot, and the returned mean and std are computed
per column over only the non-NaN rows (so the new sample is always
present and the statistics are well-defined before the window fills).
For `RunningMeanStd(n=3, n_skip=2)`: calls at image numbers 0 and 1
return (zeros, ones), and after real samples `a`, `b`, `c` at image
numbers 2, 3, 4 the mean is the elementwise arithmetic average of the
three supplied samples, with no NaN bias. -/
theorem c4_running_mean_std :
    (∀ (st : RMSState) (inp : NDArray ℚ) (i : Int), i < st.n_skip →
        RunningMeanStd_run st inp (some i)
          = .ok (st, (List.replicate inp.size (0 : ℚ),
                      List.replicate inp.size (1 : ℝ)))) ∧
    (∀ (st : RMSState) (inp : NDArray ℚ) (i : Int), ¬ i < st.n_skip →
        RunningMeanStd_run st inp (some i)
          = .ok (⟨st.n, st.n_skip,
                  some (nanMeanCols ((rmsWindowBefore st).drop 1 ++ [some inp.ravel])
                          (rmsWidth st inp)),
                  some ((rmsWindowBefore st).drop 1 ++ [some inp.ravel])⟩,
                 (nanMeanCols ((rmsWindowBefore st).drop 1 ++ [some inp.ravel])
                    (rmsWidth st inp),
                  nanStdCols ((rmsWindowBefore st).drop 1 ++ [some inp.ravel])
                    (rmsWidth st inp)))) ∧
    (∀ (w0 : List (Option (List ℚ))) (v : List ℚ),
        presentRows (w0 ++ [some v]) = presentRows w0 ++ [v]) ∧
    (∀ (w : List (Option (List ℚ))) (size : Nat),
        nanMeanCols w size
          = (List.range size).map (fun j => qMean (colAt (presentRows w) j)) ∧
        nanStdCols w size
          = (List.range size).map (fun j => popStd (colAt (presentRows w) j))) ∧
    (∀ (a b c : NDArray ℚ),
        RunningMeanStd_run ⟨3, 2, none, none⟩ a (some 0)
            = .ok (⟨3, 2, none, none⟩,
                   (List.replicate a.size (0 : ℚ), List.replicate a.size (1 : ℝ))) ∧
        RunningMeanStd_run ⟨3, 2, none, none⟩ a (some 1)
            = .ok (⟨3, 2, none, none⟩,
                   (List.replicate a.size (0 : ℚ), List.replicate a.size (1 : ℝ))) ∧
        ∃ (st1 st2 : RMSState) (out1 out2 : List ℚ × List ℝ),
          RunningMeanStd_run ⟨3, 2, none, none⟩ a (some 2) = .ok (st1, out1) ∧
          RunningMeanStd_run st1 b (some 3) = .ok (st2, out2) ∧
          ∃ (st3 : RMSState) (sd3 : List ℝ),
            RunningMeanStd_run st2 c (some 4)
              = .ok (st3, ((List.range a.size).map
                  (fun j => (a.data.getD j 0 + b.data.getD j 0
                              + c.data.getD j 0) / 3), sd3))) := by
  refine ⟨rms_run_skip, rms_run_real, presentRows_append_some,
    fun w size => ⟨rfl, rfl⟩, ?_⟩
  intro a b c
  refine ⟨rms_run_skip _ _ _ (by decide), rms_run_skip _ _ _ (by decide), ?_⟩
  have h2 : RunningMeanStd_run ⟨3, 2, none, none⟩ a (some 2)
      = .ok (⟨3, 2, some (nanMeanCols [none, none, some a.ravel] a.size),
              some [none, none, some a.ravel]⟩,
             (nanMeanCols [none, none, some a.ravel] a.size,
              nanStdCols [none, none, some a.ravel] a.size)) :=
    rms_run_real ⟨3, 2, none, none⟩ a 2 (by decide)
  have h3 : RunningMeanStd_run
        ⟨3, 2, some (nanMeanCols [none, none, some a.ravel] a.size),
         some [none, none, some a.ravel]⟩ b (some 3)
      = .ok (⟨3, 2,
              some (nanMeanCols [none, some a.ravel, some b.ravel]
                     (nanMeanCols [none, none, some a.ravel] a.size).length),
              some [none, some a.ravel, some b.ravel]⟩,
             (nanMeanCols [none, some a.ravel, some b.ravel]
                (nanMeanCols [none, none, some a.ravel] a.size).length,
              nanStdCols [none, some a.ravel, some b.ravel]
                (nanMeanCols [none, none, some a.ravel] a.size).length)) :=
    rms_run_real _ b 3 (by decide : ¬ (3 : Int) < 2)
  have hm3 : nanMeanCols [some a.ravel, some b.ravel, some c.ravel]
        ((nanMeanCols [none, some a.ravel, some b.ravel]
            (nanMeanCols [none, none, some a.ravel] a.size).length).length)
      = (List.range a.size).map
          (fun j => (a.data.getD j 0 + b.data.getD j 0 + c.data.getD j 0) / 3) := by
    rw [nanMeanCols_length, nanMeanCols_length]
    show (List.range a.size).map
        (fun j => qMean (colAt [a.ravel, b.ravel, c.ravel] j)) = _
    apply map_congr_mem
    intro j hj
    show qMean [a.data.getD j 0, b.data.getD j 0, c.data.getD j 0] = _
    rw [qMean_triple]
  have h4 : RunningMeanStd_run
        ⟨3, 2, some (nanMeanCols [none, some a.ravel, some b.ravel]
               (nanMeanCols [none, none, some a.ravel] a.size).length),
         some [none, some a.ravel, some b.ravel]⟩ c (some 4)
      = .ok (⟨3, 2,
              some (nanMeanCols [some a.ravel, some b.ravel, some c.ravel]
                     ((nanMeanCols [none, some a.ravel, some b.ravel]
                        (nanMeanCols [none, none, some a.ravel] a.size).length).length)),
              some [some a.ravel, some b.ravel, some c.ravel]⟩,
             (nanMeanCols [some a.ravel, some b.ravel, some c.ravel]
                ((nanMeanCols [none, some a.ravel, some b.ravel]
                   (nanMeanCols [none, none, some a.ravel] a.size).length).length),
              nanStdCols [some a.ravel, some b.ravel, some c.ravel]
                ((nanMeanCols [none, some a.ravel, some b.ravel]
                   (nanMeanCols [none, none, some a.ravel] a.size).length).length))) :=
    rms_run_real _ c 4 (by decide : ¬ (4 : Int) < 2)
  rw [hm3] at h4
  exact ⟨_, _, _, _, h2, h3, _, _, h4⟩

/-- Witness for C4: with `n_skip = 2`, the call at image number 0
returns the neutral pair and leaves the state untouched. -/
theorem c4_running_mean_std_witness :
    RunningMeanStd_run ⟨3, 2, none, none⟩ ⟨[1], [(5 : ℚ)]⟩ (some 0)
      = .ok (⟨3, 2, none, none⟩, ([(0 : ℚ)], [(1 : ℝ)])) :=
  c4_running_mean_std.1 ⟨3, 2, none, none⟩ ⟨[1], [(5 : ℚ)]⟩ 0 (by decide)

end Rtf
